import Mathlib

/-!
Verification of the query admission pipeline of the mcp-datasource-server
repository: the MySQL / Cypher statement validators, the Joi input schema,
the rate limiter and the result bounding, shallowly embedded over `List Char`
(JavaScript strings are modelled as ASCII character lists; `trim`, `\s` and
`toUpperCase` are modelled on the ASCII range the validators operate on).
-/

/-- ASCII whitespace, the characters matched by the `\s` regex class and
removed by `String.prototype.trim` on the ASCII range. -/
def isWS (c : Char) : Bool :=
  c = ' ' || c = '\t' || c = '\n' || c = '\r' || c = Char.ofNat 11 || c = Char.ofNat 12

/-- ASCII uppercasing of one character, modelling `toUpperCase`. -/
def upChar (c : Char) : Char :=
  if 97 ≤ c.toNat ∧ c.toNat ≤ 122 then Char.ofNat (c.toNat - 32) else c

/-- `toUpperCase` over a character list. -/
def upStr (l : List Char) : List Char := l.map upChar

/-- `String.prototype.trim`: drop whitespace from both ends (right end first;
the two ends commute). -/
def jsTrim (l : List Char) : List Char :=
  (((l.reverse).dropWhile isWS).reverse).dropWhile isWS

/-- A regex word character (`\w`), used for the `\b` boundary in the
dangerous-function scan. -/
def wordChar (c : Char) : Bool :=
  (65 ≤ c.toNat && c.toNat ≤ 90) || (97 ≤ c.toNat && c.toNat ≤ 122) ||
  (48 ≤ c.toNat && c.toNat ≤ 57) || c = '_'

/-- Does `l` start with `pat`? (`String.prototype.startsWith`). -/
def startsWithL : List Char → List Char → Bool
  | [], _ => true
  | _ :: _, [] => false
  | p :: ps, c :: cs => p = c && startsWithL ps cs

/-- Does `l` contain `pat` as a contiguous substring? (`String.prototype.includes`). -/
def hasSubstr (pat : List Char) : List Char → Bool
  | [] => startsWithL pat []
  | c :: cs => startsWithL pat (c :: cs) || hasSubstr pat cs

/-- `String.prototype.split(';')`: split into the (possibly empty) segments
between the separator occurrences. -/
def splitSemi : List Char → List (List Char)
  | [] => [[]]
  | c :: cs =>
    if c = ';' then [] :: splitSemi cs
    else
      match splitSemi cs with
      | [] => [[c]]
      | s :: ss => (c :: s) :: ss

/-- Strip `pat` from the front of `l`, returning the rest on success. -/
def stripPre : List Char → List Char → Option (List Char)
  | [], rest => some rest
  | _ :: _, [] => none
  | p :: ps, c :: cs => if p = c then stripPre ps cs else none

/-- After optional whitespace (`\s*`), the next character is `target`. -/
def afterWsChar (target : Char) : List Char → Bool
  | [] => false
  | c :: cs => if isWS c then afterWsChar target cs else c = target

/-- The regex `pat\s*t` matches somewhere in the text. -/
def scanPatWsChar (pat : List Char) (target : Char) : List Char → Bool
  | [] => false
  | c :: cs =>
    (match stripPre pat (c :: cs) with
     | some r => afterWsChar target r
     | none => false) || scanPatWsChar pat target cs

/-- The regex `p1\s+p2` matches somewhere in the text. -/
def scanWordWsWord (p1 p2 : List Char) : List Char → Bool
  | [] => false
  | c :: cs =>
    (match stripPre p1 (c :: cs) with
     | some (d :: r) => isWS d && startsWithL p2 ((d :: r).dropWhile isWS)
     | some [] => false
     | none => false) || scanWordWsWord p1 p2 cs

/-- The regex `\bname\s*\(` (word boundary, then the function name, optional
whitespace, an opening parenthesis): scan tracking whether the previous
character was a word character. -/
def scanDangerousAux (name : List Char) (prevWord : Bool) : List Char → Bool
  | [] => false
  | c :: cs =>
    (!prevWord &&
      (match stripPre name (c :: cs) with
       | some r => afterWsChar '(' r
       | none => false)) || scanDangerousAux name (wordChar c) cs

/-- Case-insensitive dangerous-function match on the (already uppercased) text. -/
def scanDangerous (name : List Char) (text : List Char) : Bool :=
  scanDangerousAux name false text

/-- One step of `replace(/\s+/g, ' ')`: the flag records whether the previous
character belonged to a whitespace run already replaced. -/
def collapseAux : Bool → List Char → List Char
  | _, [] => []
  | prevWS, c :: cs =>
    if isWS c then
      if prevWS then collapseAux true cs else ' ' :: collapseAux true cs
    else c :: collapseAux false cs

/-- `replace(/\s+/g, ' ')`: collapse every whitespace run to a single space. -/
def collapseWS (l : List Char) : List Char := collapseAux false l

/-- `replace(/;+$/, '')`: strip the maximal trailing run of semicolons. -/
def stripSemis (l : List Char) : List Char :=
  ((l.reverse).dropWhile (fun c => c = ';')).reverse

/-- The validation result returned by both query validators
(`QueryValidationResult` in `src/types`): `sanitizedQuery` is `none` exactly
when the field is left `undefined`. -/
structure QueryValidationResult where
  isValid : Bool
  isReadonly : Bool
  errors : List (List Char)
  sanitizedQuery : Option (List Char)
deriving DecidableEq

/-- A single-quote character, written by code point to keep string literals
free of quote characters. -/
def quoteCh : Char := Char.ofNat 39

namespace MySQLQueryValidator

def READONLY_KEYWORDS : List (List Char) :=
  ["SELECT".data, "SHOW".data, "DESCRIBE".data, "DESC".data, "EXPLAIN".data,
   "ANALYZE".data]

def FORBIDDEN_KEYWORDS : List (List Char) :=
  ["INSERT".data, "UPDATE".data, "DELETE".data, "DROP".data, "CREATE".data,
   "ALTER".data, "TRUNCATE".data, "REPLACE".data, "MERGE".data, "CALL".data,
   "EXECUTE".data, "GRANT".data, "REVOKE".data, "LOCK".data, "UNLOCK".data,
   "SET".data, "RESET".data, "START".data, "COMMIT".data, "ROLLBACK".data,
   "SAVEPOINT".data, "LOAD".data, "OUTFILE".data, "INFILE".data, "BACKUP".data,
   "RESTORE".data]

def DANGEROUS_FUNCTIONS : List (List Char) :=
  ["LOAD_FILE".data, "INTO OUTFILE".data, "INTO DUMPFILE".data, "SYSTEM".data,
   "BENCHMARK".data, "SLEEP".data, "GET_LOCK".data, "RELEASE_LOCK".data,
   "CONNECTION_ID".data, "USER".data, "CURRENT_USER".data, "SESSION_USER".data,
   "SYSTEM_USER".data]

def emptyMsg : List Char := "Query cannot be empty".data

def injMsg : List Char := "Query contains potential SQL injection patterns".data

def forbMsg (kw : List Char) : List Char :=
  "Operation ".data ++ [quoteCh] ++ kw ++ [quoteCh] ++ " is not allowed (readonly access only)".data

def readonlyStartMsg : List Char :=
  "Query must start with a readonly operation: SELECT, SHOW, DESCRIBE, DESC, EXPLAIN, ANALYZE".data

def funcMsg (name : List Char) : List Char :=
  "Function ".data ++ [quoteCh] ++ name ++ [quoteCh] ++ " is not allowed".data

def multMsg : List Char := "Multiple statements are not allowed".data

def structMsg : List Char := "Invalid SELECT query structure".data

/-- `containsSQLInjectionPatterns`: the pattern list of the source, evaluated
case-insensitively by scanning the uppercased text.  The `(\\')` alternative of
the first pattern is subsumed by the bare quote alternative. -/
def containsSQLInjectionPatterns (up : List Char) : Bool :=
  hasSubstr [quoteCh] up || hasSubstr ";".data up || hasSubstr "%3B".data up ||
  hasSubstr "--".data up || hasSubstr "#".data up || hasSubstr "/*".data up ||
  hasSubstr "*/".data up ||
  scanWordWsWord "UNION".data "SELECT".data up ||
  scanPatWsChar "SCRIPT".data '>' up ||
  scanPatWsChar "JAVASCRIPT".data ':' up ||
  scanPatWsChar "VBSCRIPT".data ':' up ||
  scanPatWsChar "ONLOAD".data '=' up ||
  scanPatWsChar "ONERROR".data '=' up ||
  scanPatWsChar "EVAL".data '(' up ||
  scanPatWsChar "EXPRESSION".data '(' up

/-- `containsMultipleStatements`: split on the separator, keep the segments
with non-whitespace content, reject when more than one remains. -/
def containsMultipleStatements (query : List Char) : Bool :=
  1 < ((splitSemi query).filter (fun s => 0 < (jsTrim s).length)).length

/-- The character class `[\w\s,\(\)\*\+\-\/]` of the simple-expression regex. -/
def simpleClass (c : Char) : Bool :=
  wordChar c || isWS c || c = ',' || c = '(' || c = ')' || c = '*' || c = '+' ||
  c = '-' || c = '/'

/-- Whole-string match of `^SELECT\s+[\w\s,\(\)\*\+\-\/]+(\s+AS\s+\w+)?\s*$`:
because the character class contains `\s` and every character the optional
`AS`-alias group and the trailing `\s*` can consume, the anchored regex matches
exactly when the text is `SELECT`, one whitespace character, and at least one
further character, all drawn from the class. -/
def simpleExprMatch (t : List Char) : Bool :=
  startsWithL "SELECT".data t &&
  (match t.drop 6 with
   | [] => false
   | c :: rest => isWS c && !rest.isEmpty && rest.all simpleClass)

/-- `hasValidSelectStructure`, applied to the trimmed uppercased query. -/
def hasValidSelectStructure (t : List Char) : Bool :=
  if !(startsWithL "SELECT".data t || startsWithL "SHOW".data t ||
       startsWithL "DESCRIBE".data t || startsWithL "DESC".data t ||
       startsWithL "EXPLAIN".data t || startsWithL "ANALYZE".data t) then
    false
  else if startsWithL "SELECT".data t then
    hasSubstr "FROM".data t || hasSubstr "DUAL".data t || simpleExprMatch t
  else
    true

/-- `sanitizeQuery`: trim, collapse whitespace runs, strip trailing semicolons. -/
def sanitizeQuery (query : List Char) : List Char :=
  stripSemis (collapseWS (jsTrim query))

/-- The trimmed uppercased copy used for keyword matching
(`query.trim().toUpperCase()`). -/
def trimmedUpper (query : List Char) : List Char := upStr (jsTrim query)

/-- First whitespace-delimited token of the trimmed uppercased query
(`trimmedQuery.split(/\s+/)[0]`). -/
def firstKeyword (query : List Char) : List Char :=
  (trimmedUpper query).takeWhile (fun c => !isWS c)

/-- `isReadonly`: the first keyword belongs to the readonly allow-list. -/
def isReadonlyB (query : List Char) : Bool :=
  decide (firstKeyword query ∈ READONLY_KEYWORDS)

/-- The `errors` array accumulated by `validate` on a non-empty query, one
segment per check, in source order. -/
def validateErrors (query : List Char) : List (List Char) :=
  (if containsSQLInjectionPatterns (upStr query) then [injMsg] else []) ++
  (if firstKeyword query ∈ FORBIDDEN_KEYWORDS then
    [forbMsg (firstKeyword query)] else []) ++
  (if firstKeyword query ∉ READONLY_KEYWORDS ∧
      firstKeyword query ∉ FORBIDDEN_KEYWORDS then
    [readonlyStartMsg] else []) ++
  ((DANGEROUS_FUNCTIONS.filter (fun n => scanDangerous n (upStr query))).map
    funcMsg) ++
  (if containsMultipleStatements query then [multMsg] else []) ++
  (if isReadonlyB query = true ∧ hasValidSelectStructure (trimmedUpper query) = false
    then [structMsg] else [])

/-- `MySQLQueryValidator.validate`. -/
def validate (query : List Char) : QueryValidationResult :=
  if trimmedUpper query = [] then
    ⟨false, false, [emptyMsg], none⟩
  else
    ⟨(validateErrors query).isEmpty, isReadonlyB query, validateErrors query,
     if (validateErrors query).isEmpty then some (sanitizeQuery query) else none⟩

end MySQLQueryValidator

namespace CypherQueryValidator

def READONLY_KEYWORDS : List (List Char) :=
  ["MATCH".data, "RETURN".data, "WITH".data, "UNWIND".data, "CALL".data,
   "YIELD".data]

def FORBIDDEN_KEYWORDS : List (List Char) :=
  ["CREATE".data, "DELETE".data, "DETACH".data, "SET".data, "REMOVE".data,
   "MERGE".data, "DROP".data, "FOREACH".data, "LOAD".data, "USING".data]

def emptyMsg : List Char := "Query cannot be empty".data

def forbMsg (kw : List Char) : List Char :=
  "Operation ".data ++ [quoteCh] ++ kw ++ [quoteCh] ++ " is not allowed (readonly access only)".data

def readonlyStartMsg : List Char :=
  "Query must start with a readonly operation: MATCH, RETURN, WITH, UNWIND, CALL, YIELD".data

/-- `CypherQueryValidator.sanitizeQuery`: trim and collapse whitespace runs
(no semicolon stripping here). -/
def sanitizeQuery (query : List Char) : List Char :=
  collapseWS (jsTrim query)

/-- The trimmed uppercased copy used for keyword matching. -/
def trimmedUpper (query : List Char) : List Char := upStr (jsTrim query)

/-- First whitespace-delimited token of the trimmed uppercased query. -/
def firstKeyword (query : List Char) : List Char :=
  (trimmedUpper query).takeWhile (fun c => !isWS c)

/-- `isReadonly`: the first keyword belongs to the Cypher readonly allow-list. -/
def isReadonlyB (query : List Char) : Bool :=
  decide (firstKeyword query ∈ READONLY_KEYWORDS)

/-- The `errors` array accumulated by the Cypher `validate` on a non-empty
query: one entry per forbidden keyword occurring anywhere in the trimmed
uppercased text, then the readonly-start check. -/
def validateErrors (query : List Char) : List (List Char) :=
  ((FORBIDDEN_KEYWORDS.filter
    (fun kw => hasSubstr kw (trimmedUpper query))).map forbMsg) ++
  (if isReadonlyB query = false then [readonlyStartMsg] else [])

/-- `CypherQueryValidator.validate`. -/
def validate (query : List Char) : QueryValidationResult :=
  if trimmedUpper query = [] then
    ⟨false, false, [emptyMsg], none⟩
  else
    ⟨(validateErrors query).isEmpty, isReadonlyB query, validateErrors query,
     if (validateErrors query).isEmpty then some (sanitizeQuery query) else none⟩

end CypherQueryValidator

/-! ## Result bounding (C1) -/

/-- Result bounding of `MySQLTools.queryMySQL`: slice to the limit when the raw
count exceeds it, then report `truncated` as `results.length === limit`
(computed on the already-sliced array). -/
def queryMySQLBound (results : List α) (limit : Nat) : List α × Bool :=
  let r := if limit < results.length then results.take limit else results
  (r, r.length = limit)

/-- Result bounding of `executeSafeQuery` in `api/mcp-connector.ts`:
`limitedResults = resultsArray.slice(0, limit)` and
`truncated = resultsArray.length > limit`. -/
def executeSafeQueryBound (rows : List α) (limit : Nat) : List α × Bool :=
  let limitedResults := rows.take limit
  (limitedResults, limit < rows.length)

/-! ## Rate limiting (C4) -/

/-- An entry of the in-memory rate-limit store of `api/mcp-connector.ts`. -/
structure RLEntry where
  count : Nat
  resetTime : Int
deriving DecidableEq

/-- `RATE_LIMIT.windowMs` (60 seconds). -/
def windowMs : Int := 60000

/-- `RATE_LIMIT.maxRequests`. -/
def maxRequests : Nat := 10

/-- The rate-limit store, modelling the `Map` keyed by client address. -/
def RLStore : Type := String → Option RLEntry

/-- `rateLimitStore.set(ip, e)`. -/
def rlSet (store : RLStore) (ip : String) (e : RLEntry) : RLStore :=
  fun k => if k = ip then some e else store k

/-- `checkRateLimit`: reset expired or missing windows to count 1 and admit;
reject once the count reaches the maximum; otherwise increment and admit. -/
def checkRateLimit (store : RLStore) (ip : String) (now : Int) : Bool × RLStore :=
  match store ip with
  | none => (true, rlSet store ip ⟨1, now + windowMs⟩)
  | some d =>
    if d.resetTime < now then (true, rlSet store ip ⟨1, now + windowMs⟩)
    else if maxRequests ≤ d.count then (false, store)
    else (true, rlSet store ip ⟨d.count + 1, d.resetTime⟩)

/-- Run a sequence of requests from one caller at the given instants,
collecting each admission decision. -/
def runRequests (store : RLStore) (ip : String) : List Int → List Bool
  | [] => []
  | t :: ts =>
    let r := checkRateLimit store ip t
    r.1 :: runRequests r.2 ip ts

/-- The empty rate-limit store. -/
def rlEmpty : RLStore := fun _ => none

/-! ## Input schema validation (C7, C8): the Joi `mysqlQuerySchema` of
`src/security/inputValidator.ts`, validated with `abortEarly: false`,
`stripUnknown: true` and the default `convert: true`.  Untyped request
payloads are modelled by `JVal`; JS numbers are modelled exactly: integer
values as `jnum`, non-integer values as `jnonint` carrying their floor (which
determines every comparison against the integer bounds of the schemas).  The
`Number.isSafeInteger` 2^53 bound and the float-round-trip `number.unsafe`
guard of Joi's string-to-number coercion are not modelled: numeric strings
are evaluated exactly. -/

inductive JVal where
  | jundef
  | jnull
  | jbool (b : Bool)
  | jnum (n : Int)
  | jnonint (floorVal : Int)
  | jstr (s : List Char)
  | jarr (elems : List JVal)
  | jobj (fields : List (List Char × JVal))

/-- Property lookup on an object payload.  Keys of a JS object are unique
(the JSON parser below collapses duplicates, later occurrence winning, as
`JSON.parse` does). -/
def getField (fields : List (List Char × JVal)) (k : List Char) : Option JVal :=
  match fields.find? (fun p => p.1 = k) with
  | some p => some p.2
  | none => none

/-- The left and right curly brace characters, written by code point. -/
def lbrace : Char := Char.ofNat 123

def rbrace : Char := Char.ofNat 125

/-- A character rejected by the `/^[^<>{}]*$/` pattern of the query field. -/
def badQueryChar (c : Char) : Bool :=
  c = '<' || c = '>' || c = lbrace || c = rbrace

/-- The exact value of a numeric literal: an integer, or a non-integer
number identified by its floor. -/
inductive NumVal where
  | int (n : Int)
  | nonint (floorVal : Int)
deriving DecidableEq

/-- Digits to their value. -/
def digitsToNat (ds : List Char) : Nat :=
  ds.foldl (fun a c => a * 10 + (c.toNat - 48)) 0

/-- Exact value of `± intD . fracD × 10 ^ e`: an integer when the scaled
mantissa divides out, otherwise its floor. -/
def evalNum (neg : Bool) (intD fracD : List Char) (e : Int) : NumVal :=
  let m : Nat := digitsToNat (intD ++ fracD)
  let num : Int := if neg then -(m : Int) else (m : Int)
  let e10 : Int := e - fracD.length
  if 0 ≤ e10 then .int (num * 10 ^ e10.toNat)
  else
    let p : Int := 10 ^ (-e10).toNat
    if num % p = 0 then .int (num / p) else .nonint (Int.fdiv num p)

/-- Tail of Joi's number regex after the mantissa: optional case-insensitive
exponent, then only trailing whitespace (`(?:e[+-]?\d+)?\s*$`). -/
def joiNumExpTail (neg : Bool) (intD fracD : List Char) (l : List Char) :
    Option NumVal :=
  match l with
  | c :: r =>
    if c = 'e' ∨ c = 'E' then
      let sr : Bool × List Char :=
        match r with
        | '+' :: rr => (false, rr)
        | '-' :: rr => (true, rr)
        | _ => (false, r)
      match sr.2.span Char.isDigit with
      | ([], _) => none
      | (eds, r2) =>
        if r2.dropWhile isWS = [] then
          some (evalNum neg intD fracD
            (if sr.1 then -(digitsToNat eds : Int) else (digitsToNat eds : Int)))
        else none
    else if (c :: r).dropWhile isWS = [] then some (evalNum neg intD fracD 0)
    else none
  | [] => some (evalNum neg intD fracD 0)

/-- Joi's `Joi.number()` string coercion
(`/^\s*[+-]?(?:(?:\d+(?:\.\d*)?)|(?:\.\d+))(?:e[+-]?\d+)?\s*$/i`):
`none` when the string is not numeric (no coercion, the type error fires);
otherwise the exact value of the numeral. -/
def joiNumberString (s : List Char) : Option NumVal :=
  let t0 := s.dropWhile isWS
  let st : Bool × List Char :=
    match t0 with
    | '+' :: r => (false, r)
    | '-' :: r => (true, r)
    | _ => (false, t0)
  match st.2.span Char.isDigit with
  | ([], '.' :: r) =>
    (match r.span Char.isDigit with
     | ([], _) => none
     | (fracD, t3) => joiNumExpTail st.1 [] fracD t3)
  | ([], _) => none
  | (intD, '.' :: r) =>
    (match r.span Char.isDigit with
     | (fracD, t3) => joiNumExpTail st.1 intD fracD t3)
  | (intD, t2) => joiNumExpTail st.1 intD [] t2

/-! ### JSON parsing, for Joi's object coercion of string payloads.
`Joi.object()` with `convert` attempts `Bourne.parse` (JSON.parse plus a
prototype-poisoning guard rejecting `__proto__` keys, the default
`protoAction: 'error'`) on any non-empty string whose first non-`\s`
character is `{`; on success the parsed object is validated, on failure the
string stays and the object type error fires.  JSON whitespace is only
space, tab, newline and carriage return.  Strings are modelled over Unicode
scalar values: surrogate escape pairs combine, lone surrogate escapes are
outside the model. -/

/-- JSON whitespace (strictly smaller than the regex class `\s`). -/
def isJsonWS (c : Char) : Bool :=
  c = ' ' || c = '\t' || c = '\n' || c = '\r'

def skipWsJ (l : List Char) : List Char := l.dropWhile isJsonWS

/-- One-character JSON escapes. -/
def jsonEscape (e : Char) : Option Char :=
  if e = '"' then some '"'
  else if e = '\\' then some '\\'
  else if e = '/' then some '/'
  else if e = 'b' then some (Char.ofNat 8)
  else if e = 'f' then some (Char.ofNat 12)
  else if e = 'n' then some '\n'
  else if e = 'r' then some '\r'
  else if e = 't' then some '\t'
  else none

def hexDigit (c : Char) : Option Nat :=
  if '0' ≤ c ∧ c ≤ '9' then some (c.toNat - 48)
  else if 'a' ≤ c ∧ c ≤ 'f' then some (c.toNat - 87)
  else if 'A' ≤ c ∧ c ≤ 'F' then some (c.toNat - 55)
  else none

def hex4 (h1 h2 h3 h4 : Char) : Option Nat :=
  match hexDigit h1, hexDigit h2, hexDigit h3, hexDigit h4 with
  | some a, some b, some c, some d => some (((a * 16 + b) * 16 + c) * 16 + d)
  | _, _, _, _ => none

/-- JSON string body (after the opening quote): returns the decoded
characters and the rest of the input after the closing quote. -/
def parseJsonString : List Char → Option (List Char × List Char)
  | [] => none
  | c :: cs =>
    if c = '"' then some ([], cs)
    else if c = '\\' then
      match cs with
      | 'u' :: h1 :: h2 :: h3 :: h4 :: rest =>
        (match hex4 h1 h2 h3 h4 with
         | none => none
         | some code =>
           if code < 55296 ∨ 57343 < code then
             (parseJsonString rest).map (fun p => (Char.ofNat code :: p.1, p.2))
           else if code ≤ 56319 then
             match rest with
             | '\\' :: 'u' :: g1 :: g2 :: g3 :: g4 :: rest2 =>
               (match hex4 g1 g2 g3 g4 with
                | some low =>
                  if 56320 ≤ low ∧ low ≤ 57343 then
                    (parseJsonString rest2).map (fun p =>
                      (Char.ofNat (65536 + (code - 55296) * 1024 + (low - 56320))
                        :: p.1, p.2))
                  else none
                | none => none)
             | _ => none
           else none)
      | e :: cs2 =>
        (match jsonEscape e with
         | some ch => (parseJsonString cs2).map (fun p => (ch :: p.1, p.2))
         | none => none)
      | [] => none
    else if c.toNat < 32 then none
    else (parseJsonString cs).map (fun p => (c :: p.1, p.2))

/-- Rest of a JSON number after the sign and leading digits
(`(\.\d+)?([eE][+-]?\d+)?`). -/
def jsonNumTail (neg : Bool) (intD : List Char) (l : List Char) :
    Option (NumVal × List Char) :=
  let step2 :=
    match l with
    | '.' :: r =>
      (match r.span Char.isDigit with
       | ([], _) => none
       | (fracD, l2) => some (fracD, l2))
    | _ => some ([], l)
  match step2 with
  | none => none
  | some (fracD, l2) =>
    match l2 with
    | c :: r =>
      if c = 'e' ∨ c = 'E' then
        let sr : Bool × List Char :=
          match r with
          | '+' :: rr => (false, rr)
          | '-' :: rr => (true, rr)
          | _ => (false, r)
        match sr.2.span Char.isDigit with
        | ([], _) => none
        | (eds, r2) =>
          some (evalNum neg intD fracD
            (if sr.1 then -(digitsToNat eds : Int) else (digitsToNat eds : Int)),
            r2)
      else some (evalNum neg intD fracD 0, c :: r)
    | [] => some (evalNum neg intD fracD 0, [])

/-- A JSON number token (`-?(0|[1-9]\d*)(\.\d+)?([eE][+-]?\d+)?`); a leading
zero ends the integer part, as in `JSON.parse`. -/
def jsonNumber (l : List Char) : Option (NumVal × List Char) :=
  let sl : Bool × List Char :=
    match l with
    | '-' :: r => (true, r)
    | _ => (false, l)
  match sl.2 with
  | [] => none
  | c :: cs =>
    if c = '0' then jsonNumTail sl.1 ['0'] cs
    else if c.isDigit then
      (match cs.span Char.isDigit with
       | (ds, rest) => jsonNumTail sl.1 (c :: ds) rest)
    else none

def numToJVal : NumVal → JVal
  | .int n => .jnum n
  | .nonint f => .jnonint f

/-- Insert a parsed object member: a later duplicate key overwrites the
earlier value in place, as `JSON.parse` does. -/
def insertField (fields : List (List Char × JVal)) (k : List Char) (v : JVal) :
    List (List Char × JVal) :=
  if fields.any (fun p => p.1 = k) then
    fields.map (fun p => if p.1 = k then (k, v) else p)
  else fields ++ [(k, v)]

/-- The key rejected by Bourne's prototype-poisoning guard. -/
def protoKey : List Char := "__proto__".data

mutual

/-- A JSON value, first significant character already at the head.  The fuel
only bounds the recursion; every recursive call first consumes input, so the
generous fuel passed by `parseJson` never runs out. -/
def parseVal : Nat → List Char → Option (JVal × List Char)
  | 0, _ => none
  | fuel + 1, l =>
    match l with
    | [] => none
    | c :: cs =>
      if c = lbrace then parseObjBody fuel cs
      else if c = '[' then parseArrBody fuel cs
      else if c = '"' then (parseJsonString cs).map (fun p => (.jstr p.1, p.2))
      else if c = 't' then
        (match stripPre "rue".data cs with
         | some r => some (.jbool true, r)
         | none => none)
      else if c = 'f' then
        (match stripPre "alse".data cs with
         | some r => some (.jbool false, r)
         | none => none)
      else if c = 'n' then
        (match stripPre "ull".data cs with
         | some r => some (.jnull, r)
         | none => none)
      else (jsonNumber (c :: cs)).map (fun p => (numToJVal p.1, p.2))

/-- Object body after the opening brace: empty object or first member. -/
def parseObjBody : Nat → List Char → Option (JVal × List Char)
  | 0, _ => none
  | fuel + 1, l =>
    match skipWsJ l with
    | [] => none
    | c :: cs =>
      if c = rbrace then some (.jobj [], cs)
      else if c = '"' then
        match parseJsonString cs with
        | none => none
        | some (k, r1) => parseMember fuel [] k r1
      else none

/-- One member after its key: reject `__proto__` (Bourne), expect the colon
and the value, then continue with the rest of the object. -/
def parseMember : Nat → List (List Char × JVal) → List Char → List Char →
    Option (JVal × List Char)
  | 0, _, _, _ => none
  | fuel + 1, acc, k, l =>
    if k = protoKey then none
    else
      match skipWsJ l with
      | ':' :: r =>
        (match parseVal fuel (skipWsJ r) with
         | none => none
         | some (v, r2) => parseObjRest fuel (insertField acc k v) r2)
      | _ => none

/-- After a member: the closing brace or a comma and the next member. -/
def parseObjRest : Nat → List (List Char × JVal) → List Char →
    Option (JVal × List Char)
  | 0, _, _ => none
  | fuel + 1, acc, l =>
    match skipWsJ l with
    | c :: cs =>
      if c = rbrace then some (.jobj acc, cs)
      else if c = ',' then
        match skipWsJ cs with
        | '"' :: r =>
          (match parseJsonString r with
           | none => none
           | some (k, r1) => parseMember fuel acc k r1)
        | _ => none
      else none
    | [] => none

/-- Array body after the opening bracket. -/
def parseArrBody : Nat → List Char → Option (JVal × List Char)
  | 0, _ => none
  | fuel + 1, l =>
    match skipWsJ l with
    | [] => none
    | c :: cs =>
      if c = ']' then some (.jarr [], cs)
      else
        match parseVal fuel (c :: cs) with
        | none => none
        | some (v, r) => parseArrRest fuel [v] r

/-- After an array element: the closing bracket or a comma and the next one. -/
def parseArrRest : Nat → List JVal → List Char → Option (JVal × List Char)
  | 0, _, _ => none
  | fuel + 1, acc, l =>
    match skipWsJ l with
    | c :: cs =>
      if c = ']' then some (.jarr acc, cs)
      else if c = ',' then
        (match parseVal fuel (skipWsJ cs) with
         | none => none
         | some (v, r) => parseArrRest fuel (acc ++ [v]) r)
      else none
    | [] => none

end

/-- `JSON.parse` with Bourne's `__proto__` guard: a single JSON value
spanning the whole string up to trailing JSON whitespace. -/
def parseJson (s : List Char) : Option JVal :=
  match parseVal (3 * s.length + 12) (skipWsJ s) with
  | some (v, rest) => if skipWsJ rest = [] then some v else none
  | none => none

/-- Joi's object coercion of a string payload: attempted only when the first
non-`\s` character is a brace (`value[0] === '{' || /^\s*\{/.test(value)`),
and only a successful parse to an object coerces. -/
def objectFromString (s : List Char) : Option (List (List Char × JVal)) :=
  match s.dropWhile isWS with
  | c :: _ =>
    if c = lbrace then
      match parseJson s with
      | some (.jobj fields) => some fields
      | _ => none
    else none
  | [] => none

namespace InputValidator

def qRequiredMsg : List Char := "query is required".data

def qStringMsg : List Char := "query must be a string".data

def qEmptyMsg : List Char := "Query cannot be empty".data

def qMaxMsg : List Char := "Query too long (max 10000 characters)".data

def qPatternMsg : List Char := "Query contains invalid characters".data

def limitNumMsg : List Char := "limit must be a number".data

def limitIntMsg : List Char := "limit must be an integer".data

def limitMinMsg : List Char := "Limit must be at least 1".data

def limitMaxMsg : List Char := "Limit cannot exceed 1000".data

def timeoutNumMsg : List Char := "timeout must be a number".data

def timeoutIntMsg : List Char := "timeout must be an integer".data

def timeoutMinMsg : List Char := "Timeout must be at least 1000ms".data

def timeoutMaxMsg : List Char := "Timeout cannot exceed 30000ms".data

def objMsg : List Char := "value must be of type object".data

/-- Violations of the `query` field rules: required string (`Joi.string()`
never coerces non-strings), non-empty, at most 10000 characters, no `<`, `>`
or brace characters. -/
def queryFieldErrors : Option JVal → List (List Char)
  | none => [qRequiredMsg]
  | some .jundef => [qRequiredMsg]
  | some (.jstr s) =>
    (if s = [] then [qEmptyMsg] else []) ++
    (if 10000 < s.length then [qMaxMsg] else []) ++
    (if s.any badQueryChar then [qPatternMsg] else [])
  | some _ => [qStringMsg]

/-- Violations of the `limit` field rules: optional integer in [1, 1000].
A numeric string is coerced first; a non-integer number fails `integer()` and
still runs the range rules (`abortEarly: false` collects every rule failure),
its floor deciding the comparisons with the integer bounds. -/
def limitFieldErrors : Option JVal → List (List Char)
  | none => []
  | some .jundef => []
  | some (.jnum n) =>
    (if n < 1 then [limitMinMsg] else []) ++ (if 1000 < n then [limitMaxMsg] else [])
  | some (.jnonint f) =>
    [limitIntMsg] ++ (if f < 1 then [limitMinMsg] else []) ++
    (if 1000 ≤ f then [limitMaxMsg] else [])
  | some (.jstr s) =>
    (match joiNumberString s with
     | none => [limitNumMsg]
     | some (.int n) =>
       (if n < 1 then [limitMinMsg] else []) ++
       (if 1000 < n then [limitMaxMsg] else [])
     | some (.nonint f) =>
       [limitIntMsg] ++ (if f < 1 then [limitMinMsg] else []) ++
       (if 1000 ≤ f then [limitMaxMsg] else []))
  | some _ => [limitNumMsg]

/-- Violations of the `timeout` field rules: optional integer in
[1000, 30000], with the same string coercion as `limit`. -/
def timeoutFieldErrors : Option JVal → List (List Char)
  | none => []
  | some .jundef => []
  | some (.jnum n) =>
    (if n < 1000 then [timeoutMinMsg] else []) ++
    (if 30000 < n then [timeoutMaxMsg] else [])
  | some (.jnonint f) =>
    [timeoutIntMsg] ++ (if f < 1000 then [timeoutMinMsg] else []) ++
    (if 30000 ≤ f then [timeoutMaxMsg] else [])
  | some (.jstr s) =>
    (match joiNumberString s with
     | none => [timeoutNumMsg]
     | some (.int n) =>
       (if n < 1000 then [timeoutMinMsg] else []) ++
       (if 30000 < n then [timeoutMaxMsg] else [])
     | some (.nonint f) =>
       [timeoutIntMsg] ++ (if f < 1000 then [timeoutMinMsg] else []) ++
       (if 30000 ≤ f then [timeoutMaxMsg] else []))
  | some _ => [timeoutNumMsg]

/-- The typed value produced on acceptance, with defaulted optional fields. -/
structure MySQLQueryData where
  query : List Char
  limit : Int
  timeout : Int
deriving DecidableEq

/-- The verdict shape returned by `InputValidator.validateMySQLQuery`. -/
structure InputVerdict where
  isValid : Bool
  data : Option MySQLQueryData
  errors : List (List Char)
deriving DecidableEq

/-- The accepted `query` value. -/
def queryValue : Option JVal → List Char
  | some (.jstr s) => s
  | _ => []

/-- The accepted `limit` value: the (possibly string-coerced) number, or the
default 100 when absent.  The fall-through defaults are only reached on
payloads the field checks reject. -/
def limitValue : Option JVal → Int
  | some (.jnum n) => n
  | some (.jstr s) =>
    (match joiNumberString s with
     | some (.int n) => n
     | _ => 100)
  | _ => 100

/-- The accepted `timeout` value, defaulting to 30000 when absent. -/
def timeoutValue : Option JVal → Int
  | some (.jnum n) => n
  | some (.jstr s) =>
    (match joiNumberString s with
     | some (.int n) => n
     | _ => 30000)
  | _ => 30000

/-- Validation of an object payload's fields against `mysqlQuerySchema` with
`abortEarly: false`: every violated constraint is reported, and on success
the typed data with defaults (and coerced numbers) is produced. -/
def validateFields (fields : List (List Char × JVal)) : InputVerdict :=
  let qe := queryFieldErrors (getField fields "query".data)
  let le := limitFieldErrors (getField fields "limit".data)
  let te := timeoutFieldErrors (getField fields "timeout".data)
  let errs := qe ++ le ++ te
  if errs.isEmpty then
    ⟨true,
     some ⟨queryValue (getField fields "query".data),
           limitValue (getField fields "limit".data),
           timeoutValue (getField fields "timeout".data)⟩,
     []⟩
  else ⟨false, none, errs⟩

/-- `InputValidator.validateMySQLQuery`: validate the untyped payload against
`mysqlQuerySchema`.  A top-level `undefined` passes the (non-required) object
schema with no value; an object payload is field-validated; a string payload
is first subjected to Joi's object coercion (JSON-parsed when it starts with
a brace) and validated as the parsed object on success; everything else fails
the object type check. -/
def validateMySQLQuery (input : JVal) : InputVerdict :=
  match input with
  | .jundef => ⟨true, none, []⟩
  | .jobj fields => validateFields fields
  | .jstr s =>
    (match objectFromString s with
     | some fields => validateFields fields
     | none => ⟨false, none, [objMsg]⟩)
  | _ => ⟨false, none, [objMsg]⟩

end InputValidator

/-! ## The `MySQLTools.queryMySQL` pipeline: input schema validation, then the
statement classifier, then the readonly gate, then execution and result
bounding. -/

inductive QueryOutcome where
  | inputRejected (errors : List (List Char))
  | queryRejected (errors : List (List Char))
  | notReadonly
  | internalError
  | ok (results : List Nat) (rowCount : Nat) (truncated : Bool)
deriving DecidableEq

/-- `MySQLTools.queryMySQL`, with the execution adapter abstracted as the raw
row list it would return: the stages run in source order and each rejection
returns before the later stages are consulted. -/
def queryMySQL (args : JVal) (rawRows : List Nat) : QueryOutcome :=
  let v := InputValidator.validateMySQLQuery args
  if v.isValid = false then .inputRejected v.errors
  else
    match v.data with
    | none => .internalError
    | some d =>
      let qv := MySQLQueryValidator.validate d.query
      if qv.isValid = false then .queryRejected qv.errors
      else if qv.isReadonly = false then .notReadonly
      else
        let r := queryMySQLBound rawRows d.limit.toNat
        .ok r.1 r.1.length r.2

/-! ## Theorems -/

/-- Looking up the key just written into the rate-limit store. -/
lemma rlSet_get_self (store : RLStore) (ip : String) (e : RLEntry) :
    rlSet store ip e ip = some e := by
  simp [rlSet]

/-- Starting from a live window with count `c` and `c + n` at the maximum, a
run of `n + 1` further same-window requests admits the first `n` and rejects
the last. -/
lemma runRequests_fill (n : Nat) : ∀ (c : Nat), c + n = maxRequests →
    ∀ (store : RLStore) (ip : String) (t r : Int), store ip = some ⟨c, r⟩ →
    t ≤ r →
    runRequests store ip (List.replicate (n + 1) t) =
      List.replicate n true ++ [false] := by
  induction n with
  | zero =>
    intro c hc store ip t r hget ht
    simp only [List.replicate, runRequests, checkRateLimit, hget]
    rw [if_neg (by omega), if_pos (by omega)]
    simp
  | succ n ih =>
    intro c hc store ip t r hget ht
    have hstep :
        checkRateLimit store ip t = (true, rlSet store ip ⟨c + 1, r⟩) := by
      simp only [checkRateLimit, hget]
      rw [if_neg (by omega), if_neg (by simp [maxRequests] at hc ⊢; omega)]
    rw [show n + 1 + 1 = (n + 1) + 1 from rfl, List.replicate_succ,
      runRequests, hstep]
    simp only
    rw [ih (c + 1) (by omega) _ ip t r (rlSet_get_self store ip _) ht,
      List.replicate_succ]
    simp

/-- C4: with `maxRequests = 10` and a 60s window, a request finding no window
or an expired window is admitted and starts a window with count 1; a request
finding a live window already at count 10 (the 11th request of that window) is
rejected; and from an empty store, 11 requests at one instant yield 10
admissions followed by one rejection. -/
theorem C4_rate_limiter :
    (∀ (store : RLStore) (ip : String) (now : Int),
        store ip = none →
        checkRateLimit store ip now = (true, rlSet store ip ⟨1, now + 60000⟩)) ∧
    (∀ (store : RLStore) (ip : String) (now : Int) (d : RLEntry),
        store ip = some d → d.resetTime < now →
        checkRateLimit store ip now = (true, rlSet store ip ⟨1, now + 60000⟩)) ∧
    (∀ (store : RLStore) (ip : String) (now : Int) (d : RLEntry),
        store ip = some d → now ≤ d.resetTime → 10 ≤ d.count →
        (checkRateLimit store ip now).1 = false) ∧
    (∀ (ip : String) (t : Int),
        runRequests rlEmpty ip (List.replicate 11 t) =
          List.replicate 10 true ++ [false]) := by
  refine ⟨?_, ?_, ?_, ?_⟩
  · intro store ip now h
    simp [checkRateLimit, h, windowMs]
  · intro store ip now d h hexp
    simp [checkRateLimit, h, hexp, windowMs]
  · intro store ip now d h hlive hcnt
    simp only [checkRateLimit, h]
    rw [if_neg (by omega), if_pos (by simpa [maxRequests] using hcnt)]
  · intro ip t
    have hfirst :
        checkRateLimit rlEmpty ip t = (true, rlSet rlEmpty ip ⟨1, t + windowMs⟩) := rfl
    rw [show (11 : Nat) = 10 + 1 from rfl, List.replicate_succ, runRequests,
      hfirst]
    simp only
    rw [runRequests_fill 9 1 (by simp [maxRequests]) _ ip t (t + windowMs)
      (rlSet_get_self _ _ _) (by simp [windowMs])]
    decide

/-- Witness for C4 at concrete stores: a fresh caller is admitted with a new
count-1 window; a caller with a live count-10 window is rejected; a caller
whose window has expired is admitted and reset to count 1. -/
theorem C4_rate_limiter_witness :
    checkRateLimit rlEmpty "b" 5 = (true, rlSet rlEmpty "b" ⟨1, 5 + 60000⟩) ∧
    (checkRateLimit (rlSet rlEmpty "c" ⟨10, 100⟩) "c" 50).1 = false ∧
    checkRateLimit (rlSet rlEmpty "d" ⟨3, 100⟩) "d" 200 =
      (true, rlSet (rlSet rlEmpty "d" ⟨3, 100⟩) "d" ⟨1, 200 + 60000⟩) := by
  refine ⟨?_, ?_, ?_⟩
  · exact C4_rate_limiter.1 rlEmpty "b" 5 rfl
  · exact C4_rate_limiter.2.2.1 _ "c" 50 ⟨10, 100⟩ (rlSet_get_self _ _ _)
      (by decide) (by decide)
  · exact C4_rate_limiter.2.1 _ "d" 200 ⟨3, 100⟩ (rlSet_get_self _ _ _)
      (by decide)

/-- C1: the result bounding of `executeSafeQuery` satisfies the claim —
`truncated = true` iff the raw row count exceeds the limit and the returned
row count is `min(rawRowCount, limit)` — while `MySQLTools.queryMySQL` sets
`truncated = true` on 2 raw rows with limit 2 even though the raw count does
not exceed the limit. -/
theorem C1_result_bounding :
    (∀ (rows : List Nat) (L : Nat),
        ((executeSafeQueryBound rows L).2 = true ↔ L < rows.length) ∧
        (executeSafeQueryBound rows L).1.length = min rows.length L) ∧
    ((queryMySQLBound ([5, 7] : List Nat) 2).2 = true ∧
      ¬ 2 < ([5, 7] : List Nat).length) := by
  refine ⟨?_, by decide, by decide⟩
  intro rows L
  refine ⟨by simp [executeSafeQueryBound], ?_⟩
  simp [executeSafeQueryBound, Nat.min_comm]

/-- Membership in an if-guarded singleton segment of an error list. -/
lemma mem_ite_singleton {c : Prop} [Decidable c] {a x : List Char} :
    (a ∈ if c then [x] else ([] : List (List Char))) ↔ c ∧ a = x := by
  split <;> simp_all

/-- A trimmed-to-nothing string consists of whitespace only. -/
lemma all_ws_of_jsTrim_eq_nil {q : List Char} (h : jsTrim q = []) :
    ∀ c ∈ q, isWS c = true := by
  intro c hc
  unfold jsTrim at h
  rw [List.dropWhile_eq_nil_iff] at h
  have hc' : c ∈ q.reverse := List.mem_reverse.mpr hc
  rw [← List.takeWhile_append_dropWhile (p := isWS) (l := q.reverse)] at hc'
  rcases List.mem_append.mp hc' with h1 | h2
  · exact List.mem_takeWhile_imp h1
  · exact h c (List.mem_reverse.mpr h2)

/-- A whitespace-only string trims to nothing. -/
lemma jsTrim_eq_nil_of_all_ws {q : List Char} (h : ∀ c ∈ q, isWS c = true) :
    jsTrim q = [] := by
  unfold jsTrim
  have h1 : q.reverse.dropWhile isWS = [] :=
    List.dropWhile_eq_nil_iff.mpr (fun x hx => h x (List.mem_reverse.mp hx))
  rw [h1]
  rfl

/-- Uppercasing fixes whitespace characters. -/
lemma upChar_ws {c : Char} (h : isWS c = true) : upChar c = c := by
  simp only [isWS, Bool.or_eq_true, decide_eq_true_eq] at h
  rcases h with ((((h | h) | h) | h) | h) | h <;> subst h <;> decide

/-- `splitSemi` never returns the empty list of segments. -/
lemma splitSemi_ne_nil (q : List Char) : splitSemi q ≠ [] := by
  cases q with
  | nil => simp [splitSemi]
  | cons c cs =>
    rw [splitSemi]
    by_cases h : c = ';'
    · simp [h]
    · rw [if_neg h]
      cases hs : splitSemi cs <;> simp

/-- Every character of a segment produced by `splitSemi` is a character of
the original string. -/
lemma mem_of_mem_splitSemi :
    ∀ {q s : List Char} {c : Char}, s ∈ splitSemi q → c ∈ s → c ∈ q := by
  intro q
  induction q with
  | nil =>
    intro s c hs hc
    simp [splitSemi] at hs
    subst hs
    simp at hc
  | cons d cs ih =>
    intro s c hs hc
    rw [splitSemi] at hs
    by_cases hd : d = ';'
    · rw [if_pos hd] at hs
      rcases List.mem_cons.mp hs with rfl | hs'
      · simp at hc
      · exact List.mem_cons_of_mem d (ih hs' hc)
    · rw [if_neg hd] at hs
      rcases h2 : splitSemi cs with _ | ⟨s0, ss⟩
      · exact absurd h2 (splitSemi_ne_nil cs)
      · rw [h2] at hs
        rcases List.mem_cons.mp hs with rfl | hs'
        · rcases List.mem_cons.mp hc with rfl | hc'
          · exact List.mem_cons_self _ _
          · refine List.mem_cons_of_mem d (ih ?_ hc')
            rw [h2]
            exact List.mem_cons_self s0 ss
        · refine List.mem_cons_of_mem d (ih ?_ hc)
          rw [h2]
          exact List.mem_cons_of_mem s0 hs'

/-- On a whitespace-only string the multiple-statement check cannot fire. -/
lemma containsMultipleStatements_all_ws {q : List Char}
    (h : ∀ c ∈ q, isWS c = true) :
    MySQLQueryValidator.containsMultipleStatements q = false := by
  unfold MySQLQueryValidator.containsMultipleStatements
  have hfilter :
      (splitSemi q).filter (fun s => 0 < (jsTrim s).length) = [] := by
    rw [List.filter_eq_nil_iff]
    intro s hs
    have : jsTrim s = [] :=
      jsTrim_eq_nil_of_all_ws (fun c hc => h c (mem_of_mem_splitSemi hs hc))
    simp [this]
  rw [hfilter]
  rfl

namespace MySQLQueryValidator

/-- Shape of `validate` on a non-empty (after trimming) query. -/
lemma validate_of_ne {q : List Char} (h : trimmedUpper q ≠ []) :
    validate q =
      ⟨(validateErrors q).isEmpty, isReadonlyB q, validateErrors q,
       if (validateErrors q).isEmpty then some (sanitizeQuery q) else none⟩ := by
  simp [validate, h]

/-- Shape of `validate` on an all-whitespace query. -/
lemma validate_of_nil {q : List Char} (h : trimmedUpper q = []) :
    validate q = ⟨false, false, [emptyMsg], none⟩ := by
  simp [validate, h]

/-- Characterization of the accumulated error list of `validate`: each
rejection reason is present exactly when its check fires. -/
lemma mem_validateErrors {q m : List Char} :
    m ∈ validateErrors q ↔
      (containsSQLInjectionPatterns (upStr q) = true ∧ m = injMsg) ∨
      (firstKeyword q ∈ FORBIDDEN_KEYWORDS ∧ m = forbMsg (firstKeyword q)) ∨
      ((firstKeyword q ∉ READONLY_KEYWORDS ∧
        firstKeyword q ∉ FORBIDDEN_KEYWORDS) ∧ m = readonlyStartMsg) ∨
      (∃ n, n ∈ DANGEROUS_FUNCTIONS ∧ scanDangerous n (upStr q) = true ∧
        m = funcMsg n) ∨
      (containsMultipleStatements q = true ∧ m = multMsg) ∨
      ((isReadonlyB q = true ∧ hasValidSelectStructure (trimmedUpper q) = false) ∧
        m = structMsg) := by
  simp only [validateErrors, List.mem_append, mem_ite_singleton, List.mem_map,
    List.mem_filter]
  constructor
  · intro h
    rcases h with ((((h | h) | h) | ⟨n, ⟨hn, hs⟩, hm⟩) | h) | h
    · exact Or.inl h
    · exact Or.inr (Or.inl h)
    · exact Or.inr (Or.inr (Or.inl h))
    · exact Or.inr (Or.inr (Or.inr (Or.inl ⟨n, hn, hs, hm.symm⟩)))
    · exact Or.inr (Or.inr (Or.inr (Or.inr (Or.inl h))))
    · exact Or.inr (Or.inr (Or.inr (Or.inr (Or.inr h))))
  · intro h
    rcases h with h | h | h | ⟨n, hn, hs, hm⟩ | h | h
    · exact Or.inl (Or.inl (Or.inl (Or.inl (Or.inl h))))
    · exact Or.inl (Or.inl (Or.inl (Or.inl (Or.inr h))))
    · exact Or.inl (Or.inl (Or.inl (Or.inr h)))
    · exact Or.inl (Or.inl (Or.inr ⟨n, ⟨hn, hs⟩, hm.symm⟩))
    · exact Or.inl (Or.inr h)
    · exact Or.inr h

/-- A query whose first keyword is outside the readonly set always collects at
least one error. -/
lemma validateErrors_ne_nil_of_not_readonly {q : List Char}
    (h : firstKeyword q ∉ READONLY_KEYWORDS) : validateErrors q ≠ [] := by
  intro hE
  by_cases hf : firstKeyword q ∈ FORBIDDEN_KEYWORDS
  · have : forbMsg (firstKeyword q) ∈ validateErrors q :=
      mem_validateErrors.mpr (Or.inr (Or.inl ⟨hf, rfl⟩))
    rw [hE] at this
    simp at this
  · have : readonlyStartMsg ∈ validateErrors q :=
      mem_validateErrors.mpr (Or.inr (Or.inr (Or.inl ⟨⟨h, hf⟩, rfl⟩)))
    rw [hE] at this
    simp at this

end MySQLQueryValidator

open MySQLQueryValidator in
/-- C3: every statement whose first whitespace-delimited token (after trimming
and uppercasing) lies in the forbidden keyword set is rejected by
`MySQLQueryValidator.validate`, with a reason citing the forbidden operation,
whatever the remaining text. -/
theorem C3_forbidden_first_keyword (q : List Char)
    (h : firstKeyword q ∈ FORBIDDEN_KEYWORDS) :
    (validate q).isValid = false ∧
    forbMsg (firstKeyword q) ∈ (validate q).errors := by
  by_cases h0 : trimmedUpper q = []
  · exfalso
    have hfk : firstKeyword q = [] := by rw [firstKeyword, h0]; rfl
    rw [hfk] at h
    exact absurd h (by decide)
  · have hmem : forbMsg (firstKeyword q) ∈ validateErrors q :=
      mem_validateErrors.mpr (Or.inr (Or.inl ⟨h, rfl⟩))
    rw [validate_of_ne h0]
    refine ⟨?_, hmem⟩
    simpa [List.isEmpty_eq_false] using List.ne_nil_of_mem hmem

open MySQLQueryValidator in
/-- Witness for C3: `DROP TABLE users` is rejected with the reason citing the
forbidden operation `DROP`. -/
theorem C3_forbidden_first_keyword_witness :
    (validate "DROP TABLE users".data).isValid = false ∧
    forbMsg "DROP".data ∈ (validate "DROP TABLE users".data).errors := by
  have h := C3_forbidden_first_keyword "DROP TABLE users".data (by decide)
  have hfk : firstKeyword "DROP TABLE users".data = "DROP".data := by decide
  rw [hfk] at h
  exact h

open MySQLQueryValidator in
/-- C9: if `MySQLQueryValidator.validate` accepts then the statement is
readonly and a sanitized query is present; if it rejects, the sanitized query
is absent; and no statement whose first keyword is outside the readonly set is
ever accepted. -/
theorem C9_validate_invariants (q : List Char) :
    ((validate q).isValid = true →
      (validate q).isReadonly = true ∧ (validate q).sanitizedQuery.isSome = true) ∧
    ((validate q).isValid = false → (validate q).sanitizedQuery = none) ∧
    (firstKeyword q ∉ READONLY_KEYWORDS → (validate q).isValid = false) := by
  by_cases h0 : trimmedUpper q = []
  · rw [validate_of_nil h0]
    exact ⟨fun h => absurd h (by decide), fun _ => rfl, fun _ => rfl⟩
  · rw [validate_of_ne h0]
    refine ⟨?_, ?_, ?_⟩
    · intro h
      simp only at h
      have hE : validateErrors q = [] := List.isEmpty_iff.mp h
      have hro : isReadonlyB q = true := by
        by_contra hro
        have : firstKeyword q ∉ READONLY_KEYWORDS := by
          simpa [isReadonlyB] using hro
        exact validateErrors_ne_nil_of_not_readonly this hE
      simp [hro, h]
    · intro h
      simp only at h ⊢
      rw [if_neg (by simp [h])]
    · intro h
      simp only
      simpa [List.isEmpty_eq_false] using
        validateErrors_ne_nil_of_not_readonly h

open MySQLQueryValidator in
/-- Witness for C9: `SELECT 1` is accepted, readonly and carries a sanitized
query; the rejected `DROP TABLE users` has no sanitized query; a statement
starting with an unknown verb is rejected. -/
theorem C9_validate_invariants_witness :
    (validate "SELECT 1".data).isReadonly = true ∧
    (validate "SELECT 1".data).sanitizedQuery.isSome = true ∧
    (validate "DROP TABLE users".data).sanitizedQuery = none ∧
    (validate "FOO 1".data).isValid = false := by
  have h1 := (C9_validate_invariants "SELECT 1".data).1 (by decide)
  have h2 := (C9_validate_invariants "DROP TABLE users".data).2.1 (by decide)
  have h3 := (C9_validate_invariants "FOO 1".data).2.2 (by decide)
  exact ⟨h1.1, h1.2, h2, h3⟩

open MySQLQueryValidator in
/-- C2 (counterexample): `SELECT 1;;` contains two semicolons — so the
separator occurs other than as a single trailing occurrence — yet the
multiple-statements reason is not among the rejection reasons (the two
trailing separators leave only one non-blank segment). -/
theorem C2_counterexample :
    ("SELECT 1;;".data).count ';' = 2 ∧
    multMsg ∉ (validate "SELECT 1;;".data).errors := by decide

open MySQLQueryValidator in
/-- C2 (amended): whenever splitting the statement on the separator `;`
yields more than one segment with non-whitespace content,
`MySQLQueryValidator.validate` rejects and its reasons contain the
multiple-statements reason; separators adjacent only to blank segments
(e.g. trailing or repeated trailing semicolons) are not flagged by this
check. -/
theorem C2_multiple_statements_amended (q : List Char)
    (h : containsMultipleStatements q = true) :
    (validate q).isValid = false ∧ multMsg ∈ (validate q).errors := by
  by_cases h0 : trimmedUpper q = []
  · exfalso
    have hws : ∀ c ∈ q, isWS c = true :=
      all_ws_of_jsTrim_eq_nil
        (by simpa [trimmedUpper, upStr, List.map_eq_nil_iff] using h0)
    rw [containsMultipleStatements_all_ws hws] at h
    cases h
  · have hmem : multMsg ∈ validateErrors q :=
      mem_validateErrors.mpr (Or.inr (Or.inr (Or.inr (Or.inr (Or.inl ⟨h, rfl⟩)))))
    rw [validate_of_ne h0]
    refine ⟨?_, hmem⟩
    simpa [List.isEmpty_eq_false] using List.ne_nil_of_mem hmem

open MySQLQueryValidator in
/-- Witness for C2 (amended): `SELECT 1; DROP TABLE users` splits into two
non-blank statements and is rejected with the multiple-statements reason. -/
theorem C2_multiple_statements_amended_witness :
    (validate "SELECT 1; DROP TABLE users".data).isValid = false ∧
    multMsg ∈ (validate "SELECT 1; DROP TABLE users".data).errors :=
  C2_multiple_statements_amended "SELECT 1; DROP TABLE users".data (by decide)

namespace CypherQueryValidator

/-- Shape of the Cypher `validate` on a non-empty (after trimming) query. -/
lemma cyValidate_of_ne {q : List Char} (h : trimmedUpper q ≠ []) :
    validate q =
      ⟨(validateErrors q).isEmpty, isReadonlyB q, validateErrors q,
       if (validateErrors q).isEmpty then some (sanitizeQuery q) else none⟩ := by
  simp [validate, h]

end CypherQueryValidator

/-- C10: the Cypher validator rejects every query whose trimmed uppercased
text contains a forbidden keyword as a substring at any position (even inside
a longer identifier), while the MySQL validator accepts `SELECT DATASET FROM T`
although its text contains the forbidden keyword `SET` as a substring. -/
theorem C10_cypher_substring_forbidden :
    (∀ q kw : List Char, kw ∈ CypherQueryValidator.FORBIDDEN_KEYWORDS →
        hasSubstr kw (CypherQueryValidator.trimmedUpper q) = true →
        (CypherQueryValidator.validate q).isValid = false) ∧
    ((MySQLQueryValidator.validate "SELECT DATASET FROM T".data).isValid = true ∧
      hasSubstr "SET".data
        (MySQLQueryValidator.trimmedUpper "SELECT DATASET FROM T".data) = true) := by
  constructor
  · intro q kw hkw hsub
    by_cases h0 : CypherQueryValidator.trimmedUpper q = []
    · rw [h0] at hsub
      cases kw with
      | nil => exact absurd hkw (by decide)
      | cons k ks => exact absurd hsub (by simp [hasSubstr, startsWithL])
    · have hmem : CypherQueryValidator.forbMsg kw ∈
          CypherQueryValidator.validateErrors q := by
        apply List.mem_append.mpr
        exact Or.inl (List.mem_map.mpr
          ⟨kw, List.mem_filter.mpr ⟨hkw, hsub⟩, rfl⟩)
      rw [CypherQueryValidator.cyValidate_of_ne h0]
      simpa [List.isEmpty_eq_false] using List.ne_nil_of_mem hmem
  · exact ⟨by decide, by decide⟩

/-- Witness for C10: `MATCH (n) RETURN DATASET` mentions no forbidden verb but
contains `SET` inside the identifier `DATASET`, and the Cypher validator
rejects it. -/
theorem C10_cypher_substring_forbidden_witness :
    (CypherQueryValidator.validate "MATCH (n) RETURN DATASET".data).isValid = false :=
  C10_cypher_substring_forbidden.1 "MATCH (n) RETURN DATASET".data "SET".data
    (by decide) (by decide)

namespace MySQLQueryValidator

/-- The dangerous-function message starts with the letter F. -/
lemma funcMsg_head? (n : List Char) : (funcMsg n).head? = some 'F' := rfl

/-- The forbidden-operation message starts with the letter O. -/
lemma forbMsg_head? (kw : List Char) : (forbMsg kw).head? = some 'O' := rfl

/-- No list whose head differs from F equals a dangerous-function message. -/
lemma funcMsg_ne_of_head {m : List Char} (hm : m.head? ≠ some 'F')
    (n : List Char) : funcMsg n ≠ m :=
  fun h => hm (h ▸ funcMsg_head? n)

/-- The dangerous-function message determines the function name. -/
lemma funcMsg_inj {a b : List Char} (h : funcMsg a = funcMsg b) : a = b := by
  unfold funcMsg at h
  exact List.append_cancel_left
    (List.append_cancel_right (List.append_cancel_right h))

/-- Every configured dangerous function name starts with a non-whitespace
character. -/
lemma dang_head_not_ws :
    ∀ nm ∈ DANGEROUS_FUNCTIONS, nm.head?.elim true (fun c => !isWS c) = true := by
  decide

end MySQLQueryValidator

/-- The word-boundary function scan never fires on whitespace-only text, since
the scanned name starts with a non-whitespace character. -/
lemma scanDangerousAux_all_ws {l : List Char} (hl : ∀ c ∈ l, isWS c = true)
    {n : Char} (ns : List Char) (hn : isWS n = false) :
    ∀ prev, scanDangerousAux (n :: ns) prev l = false := by
  induction l with
  | nil => intro prev; rfl
  | cons c cs ih =>
    intro prev
    have hc : isWS c = true := hl c (List.mem_cons_self _ _)
    have hne : n ≠ c := fun he => by rw [he, hc] at hn; cases hn
    have hstrip : stripPre (n :: ns) (c :: cs) = none := by
      simp only [stripPre, if_neg hne]
    simp only [scanDangerousAux, hstrip, Bool.and_false, Bool.false_or]
    exact ih (fun x hx => hl x (List.mem_cons_of_mem c hx)) (wordChar c)

open MySQLQueryValidator in
/-- C5 (counterexample): `SELECT XSLEEP(1)` contains `SLEEP` immediately
followed by an opening parenthesis, yet no reason for `SLEEP` is produced
(the regex requires a word boundary before the name); conversely
`SELECT SLEEP (10)` does not contain `SLEEP` immediately followed by an
opening parenthesis, yet the reason for `SLEEP` is produced (the regex allows
whitespace before the parenthesis). -/
theorem C5_counterexample :
    (hasSubstr "SLEEP(".data "SELECT XSLEEP(1)".data = true ∧
      funcMsg "SLEEP".data ∉ (validate "SELECT XSLEEP(1)".data).errors) ∧
    (hasSubstr "SLEEP(".data "SELECT SLEEP (10)".data = false ∧
      funcMsg "SLEEP".data ∈ (validate "SELECT SLEEP (10)".data).errors) := by
  decide

open MySQLQueryValidator in
/-- C5 (amended): for every query and configured dangerous function name, the
rejection reason for that name is produced iff the name occurs in the query
(case-insensitively) at a word boundary — not preceded by a word character —
and is followed, after optional whitespace, by an opening parenthesis. -/
theorem C5_dangerous_functions_amended (q name : List Char)
    (hname : name ∈ DANGEROUS_FUNCTIONS) :
    funcMsg name ∈ (validate q).errors ↔
      scanDangerous name (upStr q) = true := by
  by_cases h0 : trimmedUpper q = []
  · have hws : ∀ c ∈ q, isWS c = true :=
      all_ws_of_jsTrim_eq_nil
        (by simpa [trimmedUpper, upStr, List.map_eq_nil_iff] using h0)
    have hwsu : ∀ c ∈ upStr q, isWS c = true := by
      intro c hc
      rcases List.mem_map.mp hc with ⟨d, hd, rfl⟩
      rw [upChar_ws (hws d hd)]
      exact hws d hd
    have hscan : scanDangerous name (upStr q) = false := by
      rcases hn : name with _ | ⟨n, ns⟩
      · rw [hn] at hname
        exact absurd hname (by decide)
      · have hhead : isWS n = false := by
          have h1 := dang_head_not_ws name hname
          rw [hn] at h1
          simpa using h1
        exact scanDangerousAux_all_ws hwsu ns hhead false
    rw [validate_of_nil h0, hscan]
    simp only [List.mem_singleton]
    constructor
    · intro hm
      exact absurd hm (funcMsg_ne_of_head (by decide) name)
    · intro hs
      cases hs
  · rw [validate_of_ne h0]
    simp only
    constructor
    · intro hm
      rcases mem_validateErrors.mp hm with
        ⟨_, he⟩ | ⟨_, he⟩ | ⟨_, he⟩ | ⟨n, hn, hs, he⟩ | ⟨_, he⟩ | ⟨_, he⟩
      · exact absurd he (funcMsg_ne_of_head (by decide) name)
      · exact absurd he (funcMsg_ne_of_head (by rw [forbMsg_head?]; decide) name)
      · exact absurd he (funcMsg_ne_of_head (by decide) name)
      · rw [funcMsg_inj he]
        exact hs
      · exact absurd he (funcMsg_ne_of_head (by decide) name)
      · exact absurd he (funcMsg_ne_of_head (by decide) name)
    · intro hs
      exact mem_validateErrors.mpr
        (Or.inr (Or.inr (Or.inr (Or.inl ⟨name, hname, hs, rfl⟩))))

open MySQLQueryValidator in
/-- Witness for C5 (amended): `SELECT SLEEP(10)` triggers the reason for
`SLEEP`, and the occurrence of `SLEEP` inside the identifier `XSLEEP` does
not. -/
theorem C5_dangerous_functions_amended_witness :
    funcMsg "SLEEP".data ∈ (validate "SELECT SLEEP(10)".data).errors ∧
    funcMsg "SLEEP".data ∉ (validate "SELECT XSLEEP(1)".data).errors := by
  constructor
  · exact (C5_dangerous_functions_amended "SELECT SLEEP(10)".data "SLEEP".data
      (by decide)).mpr (by decide)
  · intro hm
    have := (C5_dangerous_functions_amended "SELECT XSLEEP(1)".data "SLEEP".data
      (by decide)).mp hm
    exact absurd this (by decide)

/-! ## Idempotence of canonicalization (C6) -/

/-- Characterization of the fixed points of whitespace collapsing: every
whitespace character is a single space that does not extend a previous
whitespace run. -/
def isCollapsedAux : Bool → List Char → Bool
  | _, [] => true
  | prevWS, c :: cs =>
    if isWS c then (!prevWS && c = ' ') && isCollapsedAux true cs
    else isCollapsedAux false cs

/-- The output of whitespace collapsing is collapsed. -/
lemma isCollapsedAux_collapseAux :
    ∀ (l : List Char) (b : Bool), isCollapsedAux b (collapseAux b l) = true := by
  intro l
  induction l with
  | nil => intro b; rfl
  | cons c cs ih =>
    intro b
    by_cases hc : isWS c = true
    · cases b
      · simp only [collapseAux, hc, if_true, Bool.false_eq_true, if_false]
        rw [isCollapsedAux, if_pos (by decide : isWS ' ' = true)]
        simp [ih true]
      · simp only [collapseAux, hc, if_true]
        exact ih true
    · simp only [collapseAux, hc, Bool.false_eq_true, if_false, isCollapsedAux]
      simp [hc, ih false]

/-- Collapsing fixes already-collapsed strings. -/
lemma collapseAux_of_isCollapsed :
    ∀ (l : List Char) (b : Bool), isCollapsedAux b l = true →
      collapseAux b l = l := by
  intro l
  induction l with
  | nil => intro b _; rfl
  | cons c cs ih =>
    intro b h
    by_cases hc : isWS c = true
    · rw [isCollapsedAux, if_pos hc] at h
      simp only [Bool.and_eq_true, Bool.not_eq_true', decide_eq_true_eq] at h
      obtain ⟨⟨hb, hsp⟩, hrest⟩ := h
      subst hb
      simp only [collapseAux, hc, if_true, Bool.false_eq_true, if_false]
      rw [hsp, ih true hrest]
    · rw [isCollapsedAux, if_neg hc] at h
      simp only [collapseAux, hc, Bool.false_eq_true, if_false]
      rw [ih false h]

/-- A prefix of a collapsed string is collapsed. -/
lemma isCollapsedAux_append_left :
    ∀ (l₁ l₂ : List Char) (b : Bool),
      isCollapsedAux b (l₁ ++ l₂) = true → isCollapsedAux b l₁ = true := by
  intro l₁
  induction l₁ with
  | nil => intro l₂ b _; rfl
  | cons c cs ih =>
    intro l₂ b h
    rw [List.cons_append] at h
    by_cases hc : isWS c = true
    · rw [isCollapsedAux, if_pos hc] at h ⊢
      simp only [Bool.and_eq_true] at h ⊢
      exact ⟨h.1, ih l₂ true h.2⟩
    · rw [isCollapsedAux, if_neg hc] at h ⊢
      exact ih l₂ false h

/-- Whether a string starts with a non-whitespace character (or is empty). -/
def headNoWS : List Char → Bool
  | [] => true
  | c :: _ => !isWS c

/-- Dropping leading whitespace leaves no leading whitespace. -/
lemma headNoWS_dropWhile (l : List Char) :
    headNoWS (l.dropWhile isWS) = true := by
  induction l with
  | nil => rfl
  | cons c cs ih =>
    rw [List.dropWhile_cons]
    by_cases hc : isWS c = true
    · rw [if_pos hc]; exact ih
    · rw [if_neg hc]; simp [headNoWS, hc]

/-- Dropping leading whitespace fixes a string with none. -/
lemma dropWhile_of_headNoWS {l : List Char} (h : headNoWS l = true) :
    l.dropWhile isWS = l := by
  cases l with
  | nil => rfl
  | cons c cs =>
    simp only [headNoWS, Bool.not_eq_true'] at h
    rw [List.dropWhile_cons, if_neg (by simp [h])]

/-- Collapsing preserves the absence of leading whitespace. -/
lemma headNoWS_collapseAux {l : List Char} (h : headNoWS l = true) :
    headNoWS (collapseAux false l) = true := by
  cases l with
  | nil => rfl
  | cons c cs =>
    simp only [headNoWS, Bool.not_eq_true'] at h
    simp only [collapseAux, h, Bool.false_eq_true, if_false]
    simp [headNoWS, h]

/-- A prefix of a string with no leading whitespace has none either. -/
lemma headNoWS_of_append {l₁ l₂ : List Char}
    (h : headNoWS (l₁ ++ l₂) = true) : headNoWS l₁ = true := by
  cases l₁ with
  | nil => rfl
  | cons c cs => simpa [headNoWS] using h

/-- Trimming fixes a string with no leading and no trailing whitespace. -/
lemma jsTrim_fix {t : List Char} (h1 : headNoWS t = true)
    (h2 : headNoWS t.reverse = true) : jsTrim t = t := by
  unfold jsTrim
  rw [dropWhile_of_headNoWS h2, List.reverse_reverse, dropWhile_of_headNoWS h1]

/-- A string decomposes as its semicolon-stripped form followed by the
stripped trailing semicolons. -/
lemma stripSemis_decomp (u : List Char) :
    u = stripSemis u ++ (u.reverse.takeWhile (fun c => c = ';')).reverse := by
  conv_lhs =>
    rw [← List.reverse_reverse u,
      ← List.takeWhile_append_dropWhile (p := fun c => c = ';') (l := u.reverse)]
  rw [List.reverse_append]
  rfl

/-- Stripping trailing semicolons is idempotent. -/
lemma stripSemis_idem (u : List Char) :
    stripSemis (stripSemis u) = stripSemis u := by
  unfold stripSemis
  rw [List.reverse_reverse, List.dropWhile_idempotent]

open MySQLQueryValidator in
/-- C6 (counterexample): `sanitizeQuery` is not idempotent — on `a ;` it
yields `a ` (stripping the trailing semicolon exposes a trailing space), and a
second application yields `a`. -/
theorem C6_counterexample :
    sanitizeQuery (sanitizeQuery "a ;".data) ≠ sanitizeQuery "a ;".data := by
  decide

open MySQLQueryValidator in
/-- C6 (amended): `sanitizeQuery` (trim, collapse whitespace runs, strip
trailing semicolons) is idempotent on every input whose sanitized form does
not end in a whitespace character; stripping trailing semicolons can expose a
trailing space, and only then can a second application differ. -/
theorem C6_sanitize_idempotent_amended (q : List Char)
    (h : headNoWS (sanitizeQuery q).reverse = true) :
    sanitizeQuery (sanitizeQuery q) = sanitizeQuery q := by
  have hts : sanitizeQuery q = stripSemis (collapseWS (jsTrim q)) := rfl
  set u := collapseWS (jsTrim q) with hu
  have hw1 : headNoWS (jsTrim q) = true := headNoWS_dropWhile _
  have hu1 : headNoWS u = true := headNoWS_collapseAux hw1
  have ht1 : headNoWS (stripSemis u) = true :=
    headNoWS_of_append ((stripSemis_decomp u) ▸ hu1)
  have htrim : jsTrim (stripSemis u) = stripSemis u :=
    jsTrim_fix ht1 (hts ▸ h)
  have hcu : isCollapsedAux false u = true := isCollapsedAux_collapseAux _ false
  have hct : isCollapsedAux false (stripSemis u) = true :=
    isCollapsedAux_append_left _ _ false ((stripSemis_decomp u) ▸ hcu)
  have hcfix : collapseWS (stripSemis u) = stripSemis u :=
    collapseAux_of_isCollapsed _ false hct
  rw [hts]
  show stripSemis (collapseWS (jsTrim (stripSemis u))) = stripSemis u
  rw [htrim, hcfix, stripSemis_idem]

open MySQLQueryValidator in
/-- Witness for C6 (amended): ` SELECT  1 ` sanitizes to `SELECT 1`, which
does not end in whitespace, and sanitizing again leaves it unchanged. -/
theorem C6_sanitize_idempotent_amended_witness :
    sanitizeQuery (sanitizeQuery " SELECT  1 ".data) =
      sanitizeQuery " SELECT  1 ".data :=
  C6_sanitize_idempotent_amended " SELECT  1 ".data (by decide)

namespace InputValidator

/-- Shape of the verdict on an object payload with at least one violation. -/
lemma validate_obj_errs {fields : List (List Char × JVal)}
    (h : queryFieldErrors (getField fields "query".data) ++
         limitFieldErrors (getField fields "limit".data) ++
         timeoutFieldErrors (getField fields "timeout".data) ≠ []) :
    validateMySQLQuery (.jobj fields) =
      ⟨false, none,
       queryFieldErrors (getField fields "query".data) ++
       limitFieldErrors (getField fields "limit".data) ++
       timeoutFieldErrors (getField fields "timeout".data)⟩ := by
  simp only [validateMySQLQuery, validateFields]
  rw [if_neg (by simp only [List.isEmpty_iff]; exact h)]

/-- Shape of the verdict on an object payload with no violation. -/
lemma validate_obj_ok {fields : List (List Char × JVal)}
    (h : queryFieldErrors (getField fields "query".data) ++
         limitFieldErrors (getField fields "limit".data) ++
         timeoutFieldErrors (getField fields "timeout".data) = []) :
    validateMySQLQuery (.jobj fields) =
      ⟨true,
       some ⟨queryValue (getField fields "query".data),
             limitValue (getField fields "limit".data),
             timeoutValue (getField fields "timeout".data)⟩,
       []⟩ := by
  simp only [validateMySQLQuery, validateFields]
  rw [if_pos (by simp only [List.isEmpty_iff]; exact h)]

/-- Acceptance is exactly the absence of errors, for object fields. -/
lemma validateFields_isValid_iff (fields : List (List Char × JVal)) :
    (validateFields fields).isValid = true ↔ (validateFields fields).errors = [] := by
  simp only [validateFields]
  by_cases hE : queryFieldErrors (getField fields "query".data) ++
      limitFieldErrors (getField fields "limit".data) ++
      timeoutFieldErrors (getField fields "timeout".data) = []
  · rw [if_pos (by simp only [List.isEmpty_iff]; exact hE)]
    simp
  · rw [if_neg (by simp only [List.isEmpty_iff]; exact hE)]
    simpa using hE

/-- Every violated field constraint surfaces in the returned error list. -/
lemma mem_errors_obj {fields : List (List Char × JVal)} {m : List Char}
    (hm : m ∈ queryFieldErrors (getField fields "query".data) ++
          limitFieldErrors (getField fields "limit".data) ++
          timeoutFieldErrors (getField fields "timeout".data)) :
    m ∈ (validateMySQLQuery (.jobj fields)).errors := by
  rw [validate_obj_errs (List.ne_nil_of_mem hm)]
  exact hm

end InputValidator

open InputValidator in
/-- C7: an integer `limit` outside [1, 1000] makes the input schema validator
reject with the corresponding range-violation reason (the value is not
clamped: no data is produced), the whole `queryMySQL` pipeline then stops at
the input stage before the statement classifier runs, and an absent `limit`
defaults to 100 in the accepted data. -/
theorem C7_limit_schema (fields : List (List Char × JVal)) :
    (∀ n : Int, getField fields "limit".data = some (.jnum n) →
      (n < 1 ∨ 1000 < n) →
      (validateMySQLQuery (.jobj fields)).isValid = false ∧
      (validateMySQLQuery (.jobj fields)).data = none ∧
      (n < 1 → limitMinMsg ∈ (validateMySQLQuery (.jobj fields)).errors) ∧
      (1000 < n → limitMaxMsg ∈ (validateMySQLQuery (.jobj fields)).errors) ∧
      (∀ rows : List Nat, queryMySQL (.jobj fields) rows =
        .inputRejected (validateMySQLQuery (.jobj fields)).errors)) ∧
    (getField fields "limit".data = none →
      ∀ d, (validateMySQLQuery (.jobj fields)).data = some d → d.limit = 100) := by
  constructor
  · intro n hget hrange
    have hmem : (if n < 1 then limitMinMsg else limitMaxMsg) ∈
        limitFieldErrors (getField fields "limit".data) := by
      rw [hget]
      rcases hrange with hlt | hgt
      · simp [limitFieldErrors, hlt]
      · have hnlt : ¬ n < 1 := by omega
        simp [limitFieldErrors, hnlt, hgt]
    have hmem2 : (if n < 1 then limitMinMsg else limitMaxMsg) ∈
        queryFieldErrors (getField fields "query".data) ++
        limitFieldErrors (getField fields "limit".data) ++
        timeoutFieldErrors (getField fields "timeout".data) := by
      refine List.mem_append.mpr (Or.inl ?_)
      exact List.mem_append.mpr (Or.inr hmem)
    have heq := validate_obj_errs (List.ne_nil_of_mem hmem2)
    refine ⟨by rw [heq], by rw [heq], ?_, ?_, ?_⟩
    · intro hlt
      have : limitMinMsg ∈ limitFieldErrors (getField fields "limit".data) := by
        rw [hget]
        simp [limitFieldErrors, hlt]
      exact mem_errors_obj
        (List.mem_append.mpr (Or.inl (List.mem_append.mpr (Or.inr this))))
    · intro hgt
      have : limitMaxMsg ∈ limitFieldErrors (getField fields "limit".data) := by
        rw [hget]
        have hnlt : ¬ n < 1 := by omega
        simp [limitFieldErrors, hnlt, hgt]
      exact mem_errors_obj
        (List.mem_append.mpr (Or.inl (List.mem_append.mpr (Or.inr this))))
    · intro rows
      simp only [queryMySQL]
      rw [if_pos (by rw [heq])]
  · intro hnone d hd
    by_cases hE : queryFieldErrors (getField fields "query".data) ++
        limitFieldErrors (getField fields "limit".data) ++
        timeoutFieldErrors (getField fields "timeout".data) = []
    · rw [validate_obj_ok hE] at hd
      simp only [Option.some.injEq] at hd
      rw [← hd]
      simp [limitValue, hnone]
    · rw [validate_obj_errs hE] at hd
      cases hd

open InputValidator in
/-- Witness for C7: `limit = 5000` is rejected with the range reason before
the classifier runs, and an absent `limit` defaults to 100. -/
theorem C7_limit_schema_witness :
    (validateMySQLQuery (.jobj [("query".data, .jstr "SELECT 1".data),
        ("limit".data, .jnum 5000)])).isValid = false ∧
    limitMaxMsg ∈ (validateMySQLQuery (.jobj [("query".data, .jstr "SELECT 1".data),
        ("limit".data, .jnum 5000)])).errors ∧
    queryMySQL (.jobj [("query".data, .jstr "SELECT 1".data),
        ("limit".data, .jnum 5000)]) [1, 2, 3] =
      .inputRejected (validateMySQLQuery (.jobj [("query".data, .jstr "SELECT 1".data),
        ("limit".data, .jnum 5000)])).errors ∧
    (∀ d, (validateMySQLQuery
        (.jobj [("query".data, .jstr "SELECT 1".data)])).data = some d →
      d.limit = 100) := by
  have h1 := (C7_limit_schema [("query".data, .jstr "SELECT 1".data),
      ("limit".data, .jnum 5000)]).1 5000 rfl (Or.inr (by omega))
  have h2 := (C7_limit_schema [("query".data, .jstr "SELECT 1".data)]).2 rfl
  exact ⟨h1.1, h1.2.2.2.1 (by omega), h1.2.2.2.2 [1, 2, 3], h2⟩

open InputValidator in
/-- C8: `InputValidator.validateMySQLQuery` yields a verdict for every payload
shape — acceptance exactly when the error list is empty — and, with
`abortEarly: false`, every violated constraint contributes its own message,
not only the first.  The `convert` coercions are honoured: a string payload
is validated as the object it JSON-parses to when Joi's object coercion
applies, any other non-object (and non-undefined) payload draws the
object-type error, and numeric strings for `limit`/`timeout` are coerced, so
an out-of-range numeric string draws the range message rather than a type
error. -/
theorem C8_input_validation (v : JVal) :
    ((validateMySQLQuery v).isValid = true ↔ (validateMySQLQuery v).errors = []) ∧
    (∀ fields, v = .jobj fields →
      (∀ n : Int, getField fields "limit".data = some (.jnum n) → n < 1 →
        limitMinMsg ∈ (validateMySQLQuery v).errors) ∧
      (∀ n : Int, getField fields "limit".data = some (.jnum n) → 1000 < n →
        limitMaxMsg ∈ (validateMySQLQuery v).errors) ∧
      (∀ s, ∀ n : Int, getField fields "limit".data = some (.jstr s) →
        joiNumberString s = some (.int n) → 1000 < n →
        limitMaxMsg ∈ (validateMySQLQuery v).errors) ∧
      (∀ s, getField fields "limit".data = some (.jstr s) →
        joiNumberString s = none →
        limitNumMsg ∈ (validateMySQLQuery v).errors) ∧
      (∀ f : Int, getField fields "limit".data = some (.jnonint f) →
        limitIntMsg ∈ (validateMySQLQuery v).errors) ∧
      (∀ n : Int, getField fields "timeout".data = some (.jnum n) → n < 1000 →
        timeoutMinMsg ∈ (validateMySQLQuery v).errors) ∧
      (∀ n : Int, getField fields "timeout".data = some (.jnum n) → 30000 < n →
        timeoutMaxMsg ∈ (validateMySQLQuery v).errors) ∧
      (getField fields "query".data = none →
        qRequiredMsg ∈ (validateMySQLQuery v).errors) ∧
      (∀ s, getField fields "query".data = some (.jstr s) →
        s.any badQueryChar = true →
        qPatternMsg ∈ (validateMySQLQuery v).errors)) ∧
    (∀ s, v = .jstr s →
      (∀ fields, objectFromString s = some fields →
        validateMySQLQuery v = validateFields fields) ∧
      (objectFromString s = none →
        validateMySQLQuery v = ⟨false, none, [objMsg]⟩)) ∧
    ((∀ fields, v ≠ .jobj fields) → (∀ s, v ≠ .jstr s) → v ≠ .jundef →
      validateMySQLQuery v = ⟨false, none, [objMsg]⟩) := by
  refine ⟨?_, ?_, ?_, ?_⟩
  · cases v with
    | jobj fields => exact validateFields_isValid_iff fields
    | jstr s =>
      rcases h : objectFromString s with _ | fields
      · simp [validateMySQLQuery, h]
      · have he : validateMySQLQuery (.jstr s) = validateFields fields := by
          simp [validateMySQLQuery, h]
        rw [he]
        exact validateFields_isValid_iff fields
    | jundef => simp [validateMySQLQuery]
    | jnull => simp [validateMySQLQuery]
    | jbool b => simp [validateMySQLQuery]
    | jnum n => simp [validateMySQLQuery]
    | jnonint f => simp [validateMySQLQuery]
    | jarr xs => simp [validateMySQLQuery]
  · intro fields hv
    subst hv
    refine ⟨?_, ?_, ?_, ?_, ?_, ?_, ?_, ?_, ?_⟩
    · intro n hget hlt
      refine mem_errors_obj (List.mem_append.mpr (Or.inl
        (List.mem_append.mpr (Or.inr ?_))))
      rw [hget]
      simp [limitFieldErrors, hlt]
    · intro n hget hgt
      refine mem_errors_obj (List.mem_append.mpr (Or.inl
        (List.mem_append.mpr (Or.inr ?_))))
      rw [hget]
      have hnlt : ¬ n < 1 := by omega
      simp [limitFieldErrors, hnlt, hgt]
    · intro s n hget hjoi hgt
      refine mem_errors_obj (List.mem_append.mpr (Or.inl
        (List.mem_append.mpr (Or.inr ?_))))
      rw [hget]
      have hnlt : ¬ n < 1 := by omega
      simp [limitFieldErrors, hjoi, hnlt, hgt]
    · intro s hget hjoi
      refine mem_errors_obj (List.mem_append.mpr (Or.inl
        (List.mem_append.mpr (Or.inr ?_))))
      rw [hget]
      simp [limitFieldErrors, hjoi]
    · intro f hget
      refine mem_errors_obj (List.mem_append.mpr (Or.inl
        (List.mem_append.mpr (Or.inr ?_))))
      rw [hget]
      simp [limitFieldErrors]
    · intro n hget hlt
      refine mem_errors_obj (List.mem_append.mpr (Or.inr ?_))
      rw [hget]
      simp [timeoutFieldErrors, hlt]
    · intro n hget hgt
      refine mem_errors_obj (List.mem_append.mpr (Or.inr ?_))
      rw [hget]
      have hnlt : ¬ n < 1000 := by omega
      simp [timeoutFieldErrors, hnlt, hgt]
    · intro hnone
      refine mem_errors_obj (List.mem_append.mpr (Or.inl
        (List.mem_append.mpr (Or.inl ?_))))
      rw [hnone]
      simp [queryFieldErrors]
    · intro s hget hbad
      refine mem_errors_obj (List.mem_append.mpr (Or.inl
        (List.mem_append.mpr (Or.inl ?_))))
      rw [hget]
      simp [queryFieldErrors, hbad]
  · intro s hv
    subst hv
    constructor
    · intro fields hof
      simp [validateMySQLQuery, hof]
    · intro hof
      simp [validateMySQLQuery, hof]
  · intro hobj hstr hundef
    cases v with
    | jobj fields => exact absurd rfl (hobj fields)
    | jstr s => exact absurd rfl (hstr s)
    | jundef => exact absurd rfl hundef
    | jnull => rfl
    | jbool b => rfl
    | jnum n => rfl
    | jnonint f => rfl
    | jarr xs => rfl

open InputValidator in
/-- Witness for C8: the string payload `{"query":"SELECT 1"}` is coerced to
an object and accepted; a payload violating the query pattern, the limit
range (via the coerced numeric string `"5000"`) and the timeout minimum at
once receives all three messages, not only the first; a bare number payload
gets the object-type message. -/
theorem C8_input_validation_witness :
    (validateMySQLQuery (.jstr "\x7b\"query\":\"SELECT 1\"\x7d".data)).isValid
      = true ∧
    limitMaxMsg ∈ (validateMySQLQuery (.jobj [("query".data, .jstr "a<b".data),
      ("limit".data, .jstr "5000".data),
      ("timeout".data, .jnum 50)])).errors ∧
    timeoutMinMsg ∈ (validateMySQLQuery (.jobj [("query".data, .jstr "a<b".data),
      ("limit".data, .jstr "5000".data),
      ("timeout".data, .jnum 50)])).errors ∧
    qPatternMsg ∈ (validateMySQLQuery (.jobj [("query".data, .jstr "a<b".data),
      ("limit".data, .jstr "5000".data),
      ("timeout".data, .jnum 50)])).errors ∧
    (validateMySQLQuery (.jnum 3)).errors = [objMsg] := by
  have hs := ((C8_input_validation
      (.jstr "\x7b\"query\":\"SELECT 1\"\x7d".data)).2.2.1
      "\x7b\"query\":\"SELECT 1\"\x7d".data rfl).1
      [("query".data, .jstr "SELECT 1".data)] rfl
  have h := (C8_input_validation (.jobj [("query".data, .jstr "a<b".data),
    ("limit".data, .jstr "5000".data), ("timeout".data, .jnum 50)])).2.1 _ rfl
  have h2 := (C8_input_validation (.jnum 3)).2.2.2
    (fun fields hf => JVal.noConfusion hf) (fun s hf => JVal.noConfusion hf)
    (fun hf => JVal.noConfusion hf)
  refine ⟨?_, ?_, ?_, ?_, ?_⟩
  · rw [hs]
    decide
  · exact h.2.2.1 "5000".data 5000 rfl (by decide) (by omega)
  · exact h.2.2.2.2.2.1 50 rfl (by omega)
  · exact h.2.2.2.2.2.2.2.2 "a<b".data rfl (by decide)
  · rw [h2]
